import Mathlib

/-!
Verification of the ultrapyup project-initialization CLI against its
natural-language specification.

The development shallowly embeds the code of `src/ultrapy/package_manager.py`
(package-manager detection, dependency installation, Ruff config linking)
and, for modules whose implementation files are not part of the source tree
(`migrate`, `pre_commit`, `editor`), models the missing operations from the
specification.  File systems are modelled as explicit data (lists of file
names, association lists of path/content pairs), subprocess and prompt
interactions as explicit parameters and returned command strings.
-/

set_option maxRecDepth 100000

namespace Ultrapyup

/-! ## Data model: `PackageManager` and `PreCommitTool` registries -/

/-- Embeds the `PackageManager` dataclass of `package_manager.py`. -/
structure PackageManager where
  name : String
  add_cmd : String
  lockfile : String
deriving DecidableEq

/-- Embeds the fixed registry `options` of `package_manager.py`:
`uv` first, then `pip`. -/
def options : List PackageManager :=
  [⟨"uv", "uv add", "uv.lock"⟩, ⟨"pip", "pip install", "requirements.txt"⟩]

/-- Embeds the `PreCommitTool` dataclass (fields as exercised by the tests:
display name, machine value, config filename). -/
structure PreCommitTool where
  name : String
  value : String
  filename : String
deriving DecidableEq

/-! ## Package-manager detection (`get_package_manager`)

The project root's file system is modelled as the list of file names that
exist; `file_exist` embeds the `file_exist(Path(...))` check.  The
interactive `inquirer.select` prompt is modelled as an input `choice`
string: the detection loop runs first and, when a lockfile is found,
returns without ever consulting `choice`. -/

/-- Embeds `file_exist(Path(p))`: `p` names an existing file of the project
root, which is modelled by the list `files`. -/
def file_exist (files : List String) (p : String) : Bool :=
  files.contains p

/-- Embeds the first loop of `get_package_manager`: iterate the registry in
order, returning the first manager whose lockfile exists. -/
def detectLoop : List PackageManager → List String → Option PackageManager
  | [], _ => none
  | pm :: rest, files =>
    if file_exist files pm.lockfile then some pm else detectLoop rest files

/-- Embeds `get_package_manager` of `package_manager.py`: auto-detect by
lockfile presence in registry order; only when nothing is detected, fall
back to the user's prompted `choice` and map it back through the registry,
raising `ValueError` when the choice matches no registry entry. -/
def get_package_manager (files : List String) (choice : String) :
    Except String PackageManager :=
  match detectLoop options files with
  | some pm => Except.ok pm
  | none =>
    match options.find? (fun pm => pm.name == choice) with
    | some pm => Except.ok pm
    | none => Except.error ("Unknown package manager: " ++ choice)

/-! ## Dependency installation (`install_dependencies`)

`install_dependencies` builds one shell command string, spawns it (output
captured and discarded), then logs a title and the tool list.  The embedding
returns the triple (command, logged title, logged info line); the spawned
process's exit status is a parameter that the function never inspects. -/

/-- Embeds Python truthiness of the `pre_commit_tools` argument
(`None` and `[]` are falsy). -/
def toolsSelected : Option (List PreCommitTool) → Bool
  | some (_ :: _) => true
  | _ => false

/-- Embeds the f-string of the `subprocess.run` call in
`install_dependencies`:
`f"{add_cmd} ruff ty ultrapy{' '.join(values) if tools else ' '} --dev"`.
Note the source interpolates the joined tool values directly after
`"ultrapy"` with no separating space. -/
def install_cmd (pm : PackageManager) (tools : Option (List PreCommitTool)) :
    String :=
  pm.add_cmd ++ " ruff ty ultrapy" ++
    (if toolsSelected tools then
      String.intercalate " " ((tools.getD []).map PreCommitTool.value)
    else " ") ++ " --dev"

/-- Embeds the `log.info` f-string of `install_dependencies`:
`f"ruff, ty{', ' if tools else ''}{', '.join(values) if tools else ''}"`. -/
def install_log (tools : Option (List PreCommitTool)) : String :=
  "ruff, ty" ++
    (if toolsSelected tools then ", " else "") ++
    (if toolsSelected tools then
      String.intercalate ", " ((tools.getD []).map PreCommitTool.value)
    else "")

/-- Embeds `install_dependencies`: the observable behaviour is the spawned
shell command, the logged title and the logged info line.  `exitStatus` is
the spawned process's exit status, which the source never reads. -/
def install_dependencies (pm : PackageManager)
    (tools : Option (List PreCommitTool)) (exitStatus : Int) :
    String × String × String :=
  (install_cmd pm tools, "Dependencies installed", install_log tools)

/-! ## Substring occurrence

Executable substring test used to state containment facts about emitted
file contents and command strings. -/

/-- `occursIn p s` holds when `p` occurs contiguously inside `s`. -/
def occursIn (p s : List Char) : Bool :=
  (List.range (s.length + 1)).any fun n => p.isPrefixOf (s.drop n)

/-! ## Ruff configuration linking (`ruff_config_setup`)

The source reads `pyproject.toml`, decides `ruff_exists` by TOML-parsing it
(`"tool" in config and "ruff" in config["tool"]`), then rewrites the raw
text: when a `[tool.ruff]` block exists it is replaced via
`re.sub(r"\[tool\.ruff\].*?(?=\n\[|\Z)", new_block, content, flags=DOTALL)`,
otherwise the new block is appended.  The embedding below implements that
regex substitution on the character list: the pattern matches a literal
`[tool.ruff]` extended lazily up to (but not including) the next
`"\n["` or the end of the string, and every match is replaced.
Note the source computes `base_config_path` as a constant string containing
a literal `python*` glob; it never inspects the virtual environment on
disk. -/

/-- Embeds the constant `base_config_path` of `ruff_config_setup`
(lines 95-97 of `package_manager.py`): a literal string with a `python*`
glob, assigned without any file-system lookup. -/
def base_config_path : String :=
  ".venv/lib/python*/site-packages/ultrapy/resources/ruff_base.toml"

/-- The literal part `[tool.ruff]` of the regex pattern. -/
def ruffPat : List Char := "[tool.ruff]".data

/-- The lookahead `(?=\n\[)` of the regex pattern: the start of the next
top-level or nested section header on a fresh line. -/
def sectionStart : List Char := "\n[".data

/-- The replacement text `f'[tool.ruff]\nextend = "{base_config_path}"'`. -/
def ruffRepl : List Char :=
  ("[tool.ruff]\nextend = \"" ++ base_config_path ++ "\"").data

/-- Index of the first position where `sectionStart` begins, or the length
of the list when there is none: the lazy extension of the regex match stops
exactly there. -/
def sectionIndex : List Char → Nat
  | [] => 0
  | c :: cs =>
    if sectionStart.isPrefixOf (c :: cs) then 0 else sectionIndex cs + 1

/-- Drop the lazily matched block body: everything strictly before the next
`"\n["` (or the whole rest when no further section follows). -/
def skipToSection (l : List Char) : List Char :=
  l.drop (sectionIndex l)

/-- Embeds `re.sub(r"\[tool\.ruff\].*?(?=\n\[|\Z)", ruffRepl, l, DOTALL)`:
scan left to right; at the first position where `[tool.ruff]` matches,
consume it together with the lazily extended body, emit the replacement and
resume scanning at the lookahead position. -/
def ruffSub (l : List Char) : List Char :=
  match l with
  | [] => []
  | c :: cs =>
    if ruffPat.isPrefixOf (c :: cs) then
      ruffRepl ++ ruffSub (skipToSection (List.drop ruffPat.length (c :: cs)))
    else
      c :: ruffSub cs
termination_by l.length
decreasing_by
  · have hp : ruffPat.length = 11 := rfl
    simp only [skipToSection, List.length_drop, List.length_cons, hp]
    omega
  · simp

/-- Embeds the text rewrite of `ruff_config_setup` (lines 100-122): with an
existing `[tool.ruff]` block the regex substitution runs, otherwise the
block `"\n[tool.ruff]\nextend = \"...\"\n"` is appended.  `ruff_exists` is
the source's TOML-derived flag `"tool" in config and "ruff" in
config["tool"]`. -/
def ruff_config_update (content : String) (ruff_exists : Bool) : String :=
  if ruff_exists then String.mk (ruffSub content.data)
  else content ++ "\n[tool.ruff]\nextend = \"" ++ base_config_path ++ "\"\n"

/-- Embeds line 125 of `package_manager.py`:
`action = "Overrode" if ruff_exists else "Added"`. -/
def ruffAction (ruff_exists : Bool) : String :=
  if ruff_exists then "Overrode" else "Added"

/-! ## Dependency migration (modelled from the spec)

`ultrapyup/migrate.py` is not part of the source tree (only its tests are),
so the migration operation is modelled from the specification, section 4.2.
The project state records the contents of `pyproject.toml` (text) and of
`requirements.txt` (raw bytes); UTF-8 decoding embeds Python's strict
`Path.read_text()` decoding. -/

/-- Modelled from the spec: the project files that migration reads and
writes — the manifest `pyproject.toml` (text, `none` when absent) and the
legacy `requirements.txt` (raw bytes, `none` when absent). -/
structure ProjectState where
  pyproject : Option (List Char)
  requirements : Option (List Nat)
deriving DecidableEq

/-- Modelled from the spec: strict UTF-8 decoding of a byte list, fuel
variant (the fuel is an upper bound on the number of decoded characters;
`utf8Decode` supplies the list length).  Returns `none` on any invalid
sequence: stray continuation bytes, overlong encodings, surrogates,
code points beyond `0x10FFFF`, truncated sequences. -/
def utf8DecodeGo : Nat → List Nat → Option (List Char)
  | _, [] => some []
  | 0, _ :: _ => none
  | Nat.succ f, b :: bs =>
    if b < 0x80 then
      (utf8DecodeGo f bs).map fun cs => Char.ofNat b :: cs
    else if b < 0xC2 then none
    else if b < 0xE0 then
      match bs with
      | b1 :: rest =>
        if 0x80 ≤ b1 ∧ b1 < 0xC0 then
          (utf8DecodeGo f rest).map fun cs =>
            Char.ofNat ((b - 0xC0) * 0x40 + (b1 - 0x80)) :: cs
        else none
      | [] => none
    else if b < 0xF0 then
      match bs with
      | b1 :: b2 :: rest =>
        if (0x80 ≤ b1 ∧ b1 < 0xC0) ∧ (0x80 ≤ b2 ∧ b2 < 0xC0) then
          let cp := (b - 0xE0) * 0x1000 + (b1 - 0x80) * 0x40 + (b2 - 0x80)
          if cp < 0x800 ∨ (0xD800 ≤ cp ∧ cp < 0xE000) then none
          else (utf8DecodeGo f rest).map fun cs => Char.ofNat cp :: cs
        else none
      | _ => none
    else if b < 0xF5 then
      match bs with
      | b1 :: b2 :: b3 :: rest =>
        if (0x80 ≤ b1 ∧ b1 < 0xC0) ∧ (0x80 ≤ b2 ∧ b2 < 0xC0) ∧
            (0x80 ≤ b3 ∧ b3 < 0xC0) then
          let cp := (b - 0xF0) * 0x40000 + (b1 - 0x80) * 0x1000 +
            (b2 - 0x80) * 0x40 + (b3 - 0x80)
          if cp < 0x10000 ∨ 0x110000 ≤ cp then none
          else (utf8DecodeGo f rest).map fun cs => Char.ofNat cp :: cs
        else none
      | _ => none
    else none

/-- Modelled from the spec: strict UTF-8 decoding, as performed by
`Path.read_text()` on the legacy requirements file. -/
def utf8Decode (l : List Nat) : Option (List Char) :=
  utf8DecodeGo l.length l

/-- ASCII text rendered as its (UTF-8) byte sequence, used to build
concrete legacy-file contents. -/
def asciiBytes (s : String) : List Nat :=
  s.data.map Char.toNat

/-- Modelled from the spec: the whitespace characters trimmed from a
requirement line (Python `str.strip`, ASCII subset). -/
def isSpace (c : Char) : Bool :=
  c = ' ' || c = '\t' || c = '\n' || c = '\r' || c = '\x0b' || c = '\x0c'

/-- Modelled from the spec: trim whitespace from both ends of a line. -/
def strip (l : List Char) : List Char :=
  ((l.dropWhile isSpace).reverse.dropWhile isSpace).reverse

/-- Modelled from the spec: split the decoded legacy file into its lines
(separator `'\n'`). -/
def splitLines : List Char → List (List Char)
  | [] => [[]]
  | c :: cs =>
    if c = '\n' then [] :: splitLines cs
    else
      match splitLines cs with
      | [] => [[c]]
      | l :: ls => (c :: l) :: ls

/-- Modelled from the spec: a line yields a dependency exactly when, after
trimming whitespace, it is non-empty and does not start with the `'#'`
comment marker; the dependency is the trimmed line. -/
def dep_of_line (line : List Char) : Option (List Char) :=
  match strip line with
  | [] => none
  | c :: cs => if c = '#' then none else some (c :: cs)

/-- Modelled from the spec: parse the legacy file line by line, keeping the
qualifying lines in their original relative order. -/
def parse_requirements (text : List Char) : List (List Char) :=
  (splitLines text).filterMap dep_of_line

/-- A dependency quoted as a literal string for the emitted manifest. -/
def quoteDep (d : List Char) : List Char :=
  '\"' :: (d ++ ['\"'])

/-- Modelled from the spec: the manifest emitted by migration — a minimal
project identity block, the ordered dependency list quoted as literal
strings, and a build-system declaration. -/
def emitManifest (deps : List (List Char)) : List Char :=
  ("[project]\nname = \"migrated-project\"\nversion = \"0.1.0\"\n" ++
    "dependencies = [\n").data ++
  (deps.map fun d => "    ".data ++ quoteDep d ++ ",\n".data).flatten ++
  ("]\n\n[build-system]\nrequires = [\"hatchling\"]\n" ++
    "build-backend = \"hatchling.build\"\n").data

/-- Modelled from the spec (section 4.2): `_migrate_requirements_to_pyproject`.
Steps, in order: if no legacy file exists, return; if a manifest already
exists, return without modification; decode the legacy bytes as strict
UTF-8, propagating a decode error as fatal; otherwise parse the lines and
create the manifest.  The legacy file itself is left in place. -/
def _migrate_requirements_to_pyproject (st : ProjectState) :
    Except String ProjectState :=
  match st.requirements with
  | none => Except.ok st
  | some bytes =>
    match st.pyproject with
    | some _ => Except.ok st
    | none =>
      match utf8Decode bytes with
      | none => Except.error "UnicodeDecodeError"
      | some text =>
        Except.ok ⟨some (emitManifest (parse_requirements text)),
          st.requirements⟩

/-- Modelled from the spec: the file-system state after calling migration —
on success the returned state, on a propagated error the original state
(the exception is raised before any file is written). -/
def migrate_run (st : ProjectState) : ProjectState :=
  match _migrate_requirements_to_pyproject st with
  | Except.ok s => s
  | Except.error _ => st

/-- The concrete legacy requirements file of the specification's migration
scenario. -/
def scenarioText : String :=
  "requests==2.31.0\npytest>=7.0.0\n# comment\n\nblack==23.0.0\n"

/-! ## Pre-commit setup (modelled from the spec)

`ultrapyup/pre_commit.py` is not part of the source tree (only its tests
are), so `precommit_setup` is modelled from the specification, section 4.6:
the hook-install invocation form is looked up in a per-manager-name table,
and an unrecognized manager name is a fatal, reported error raised before
any config-file copy or install attempt. -/

/-- An observable side effect of `precommit_setup`, in order of
occurrence: copying a config template into the project root, or running a
shell command. -/
inductive SetupEffect where
  | copied_config (filename : String)
  | ran_command (cmd : String)
deriving DecidableEq

/-- Modelled from the spec: the per-manager table of "run installed tool"
invocation forms — `uv` needs an explicit `uv run` sub-invocation, `pip`
invokes the installed tool directly (empty form). -/
def run_invocations : List (String × String) :=
  [("uv", "uv run"), ("pip", "")]

/-- Modelled from the spec: the hook-install command built from a manager's
run form and the tool's machine value. -/
def run_invocation (form : String) (toolValue : String) : String :=
  if form = "" then toolValue ++ " install"
  else form ++ " " ++ toolValue ++ " install"

/-- Modelled from the spec (section 4.6): `precommit_setup` — look the
manager's name up in the invocation table; on a miss, fail with a fatal
reported error having performed no effect; on a hit, copy the tool's config
template to the project root, then run the hook-install command.  Returns
the performed effects in order, paired with the fatal error message when
one is raised. -/
def precommit_setup (pm : PackageManager) (tool : PreCommitTool) :
    List SetupEffect × Option String :=
  match run_invocations.lookup pm.name with
  | none => ([], some ("Unknown package manager: " ++ pm.name))
  | some form =>
    ([SetupEffect.copied_config tool.filename,
      SetupEffect.ran_command (run_invocation form tool.value)], none)

/-! ## Editor settings materialization (modelled from the spec)

`ultrapyup/editor.py` is not part of the source tree (only its tests are),
so the settings-directory copy is modelled from the specification, section
4.5: a recursive merging copy over directories modelled as association
lists from relative file paths to file contents. -/

/-- Modelled from the spec: merge-copy a source settings directory into a
destination directory — every file present in the source overwrites the
same-named destination file; every destination file not present in the
source is left untouched.  Directories are maps from relative path to
content; the result maps each path to the content found there after the
copy. -/
def merge_settings (src dst : List (String × String)) :
    String → Option String :=
  fun path =>
    match src.lookup path with
    | some content => some content
    | none => dst.lookup path

/-! ## Theorems -/

/-- C8: `get_package_manager` iterates the fixed registry in its declared
priority order and returns the first entry whose lockfile exists in the
project root, without consulting the prompt: when `uv.lock` exists the
`uv` entry wins (in particular when `requirements.txt` is also present),
when only `requirements.txt` exists the `pip` entry is returned, and in
either case the result does not depend on the prompted choice. -/
theorem get_package_manager_detection_priority (files : List String)
    (c c2 : String) :
    ("uv.lock" ∈ files →
      get_package_manager files c = Except.ok ⟨"uv", "uv add", "uv.lock"⟩) ∧
    ("uv.lock" ∉ files → "requirements.txt" ∈ files →
      get_package_manager files c =
        Except.ok ⟨"pip", "pip install", "requirements.txt"⟩) ∧
    (("uv.lock" ∈ files ∨ "requirements.txt" ∈ files) →
      get_package_manager files c = get_package_manager files c2) := by
  by_cases h1 : "uv.lock" ∈ files <;> by_cases h2 : "requirements.txt" ∈ files <;>
    simp [get_package_manager, detectLoop, options, file_exist, h1, h2]

/-- C8 witness: with both `uv.lock` and `requirements.txt` present the
earlier registry entry (`uv`) wins, whatever the prompt would have
answered. -/
theorem get_package_manager_detection_priority_witness :
    get_package_manager ["uv.lock", "requirements.txt"] "pip" =
      Except.ok ⟨"uv", "uv add", "uv.lock"⟩ ∧
    get_package_manager ["uv.lock", "requirements.txt"] "pip" =
      get_package_manager ["uv.lock", "requirements.txt"] "nonsense" :=
  ⟨(get_package_manager_detection_priority _ "pip" "nonsense").1 (by decide),
   (get_package_manager_detection_priority _ "pip" "nonsense").2.2
     (Or.inl (by decide))⟩

/-- C3: the claim states that `install_dependencies` spawns exactly one
shell command whose tokens — add-command template, the fixed dev tools
`ruff ty ultrapy`, each extra tool value, `--dev` — are all separated by
whitespace.  The code violates this: the joined extra-tool values are
interpolated directly after `"ultrapy"` with no separating space, so with
`uv` and the `lefthook` extra the spawned command is
`"uv add ruff ty ultrapylefthook --dev"`, whose whitespace-separated words
include the fused token `"ultrapylefthook"`. -/
theorem install_cmd_fuses_ultrapy_with_first_tool :
    install_cmd ⟨"uv", "uv add", "uv.lock"⟩
        (some [⟨"Lefthook", "lefthook", "lefthook.yaml"⟩]) =
      "uv add ruff ty ultrapylefthook --dev" ∧
    occursIn "ultrapylefthook".data
      (install_cmd ⟨"uv", "uv add", "uv.lock"⟩
        (some [⟨"Lefthook", "lefthook", "lefthook.yaml"⟩])).data = true ∧
    occursIn "ultrapy lefthook".data
      (install_cmd ⟨"uv", "uv add", "uv.lock"⟩
        (some [⟨"Lefthook", "lefthook", "lefthook.yaml"⟩])).data = false := by
  refine ⟨by decide, by decide, by decide⟩

/-- C6: the reported outcome of `install_dependencies` never depends on the
subprocess exit status (first conjunct), but the logged tool list omits
the tool itself: with no extras the log line is `"ruff, ty"`, with extras
`"ruff, ty, lefthook, pre-commit"`, never the `"ruff, ty, ultrapy[, ...]"`
that the claim (and the repository's own tests) require. -/
theorem install_report_ignores_exit_status :
    (∀ pm tools e1 e2,
      install_dependencies pm tools e1 = install_dependencies pm tools e2) ∧
    install_log none = "ruff, ty" ∧
    install_log (some [⟨"Lefthook", "lefthook", "lefthook.yaml"⟩,
      ⟨"Pre-commit", "pre-commit", ".pre-commit-config.yaml"⟩]) =
      "ruff, ty, lefthook, pre-commit" ∧
    install_log none ≠ "ruff, ty, ultrapy" := by
  refine ⟨fun pm tools e1 e2 => rfl, by decide, by decide, by decide⟩

/-- C4: the claim states that `ruff_config_setup` searches the virtual
environment for a site-packages directory in several layouts and skips,
reporting "not found", when none exists.  The code violates this: the base
configuration path is a hardcoded constant containing a literal `python*`
glob, no file-system check happens (the update function has no
file-system input at all), and on a manifest without a `[tool.ruff]` block
the manifest is modified — the glob block is appended and "Added" is
reported — even when no virtual environment exists. -/
theorem ruff_config_hardcodes_glob_path :
    ruff_config_update "[project]\nname = 'test'\n" false =
      "[project]\nname = 'test'\n" ++ "\n[tool.ruff]\nextend = \"" ++
        base_config_path ++ "\"\n" ∧
    ruff_config_update "[project]\nname = 'test'\n" false ≠
      "[project]\nname = 'test'\n" ∧
    occursIn "python*".data base_config_path.data = true ∧
    ruffAction false = "Added" := by
  refine ⟨rfl, by decide, by decide, rfl⟩

/-- C5: `precommit_setup` maps the selected manager's name through the
per-manager invocation table to build the hook-install command, and an
unrecognized manager name is a fatal, reported error raised before any
config-file copy or install attempt (the effect list is empty). -/
theorem precommit_setup_table_driven (pm : PackageManager)
    (tool : PreCommitTool) :
    (run_invocations.lookup pm.name = none →
      precommit_setup pm tool =
        ([], some ("Unknown package manager: " ++ pm.name))) ∧
    (∀ form, run_invocations.lookup pm.name = some form →
      precommit_setup pm tool =
        ([SetupEffect.copied_config tool.filename,
          SetupEffect.ran_command (run_invocation form tool.value)], none)) := by
  constructor
  · intro h; simp [precommit_setup, h]
  · intro form h; simp [precommit_setup, h]

/-- C5 witness: an unregistered manager name fails fatally with no effect
performed, while a registered one copies the config and runs the
hook-install command. -/
theorem precommit_setup_table_driven_witness :
    precommit_setup ⟨"poetry", "poetry add", "poetry.lock"⟩
        ⟨"Lefthook", "lefthook", "lefthook.yaml"⟩ =
      ([], some ("Unknown package manager: " ++ "poetry")) ∧
    precommit_setup ⟨"uv", "uv add", "uv.lock"⟩
        ⟨"Lefthook", "lefthook", "lefthook.yaml"⟩ =
      ([SetupEffect.copied_config "lefthook.yaml",
        SetupEffect.ran_command (run_invocation "uv run" "lefthook")], none) :=
  ⟨(precommit_setup_table_driven _ _).1 (by decide),
   (precommit_setup_table_driven _ _).2 "uv run" (by decide)⟩

/-- C9: merging a settings directory into a destination overwrites every
same-named destination file with the source content and leaves every
destination file not present in the source untouched. -/
theorem merge_settings_overwrite_and_preserve
    (src dst : List (String × String)) (p : String) :
    (∀ c, src.lookup p = some c → merge_settings src dst p = some c) ∧
    (src.lookup p = none → merge_settings src dst p = dst.lookup p) := by
  constructor
  · intro c h; simp [merge_settings, h]
  · intro h; simp [merge_settings, h]

/-- C9 witness: the specification's example — a stale `settings.json` is
overwritten by the source copy while the destination-only `custom.json`
is preserved. -/
theorem merge_settings_overwrite_and_preserve_witness :
    merge_settings [("settings.json", "new settings")]
        [("custom.json", "custom"), ("settings.json", "old settings")]
        "settings.json" = some "new settings" ∧
    merge_settings [("settings.json", "new settings")]
        [("custom.json", "custom"), ("settings.json", "old settings")]
        "custom.json" =
      List.lookup "custom.json"
        [("custom.json", "custom"), ("settings.json", "old settings")] :=
  ⟨(merge_settings_overwrite_and_preserve _ _ _).1 "new settings" (by decide),
   (merge_settings_overwrite_and_preserve _ _ _).2 (by decide)⟩

/-- C10: when the legacy requirements file exists but its bytes are not
valid UTF-8 and no manifest exists, migration fails with the decode error
propagated as fatal, and the project state — in particular the absent
manifest — is unchanged. -/
theorem migrate_decode_error_fatal (st : ProjectState) (bytes : List Nat)
    (hreq : st.requirements = some bytes) (hpy : st.pyproject = none)
    (hdec : utf8Decode bytes = none) :
    _migrate_requirements_to_pyproject st =
      Except.error "UnicodeDecodeError" ∧
    migrate_run st = st ∧ (migrate_run st).pyproject = none := by
  obtain ⟨py, req⟩ := st
  simp only at hreq hpy
  subst hreq hpy
  simp [_migrate_requirements_to_pyproject, migrate_run, hdec]

/-- C10 witness: the bytes `0xFF 0xFE` (the tests' invalid-UTF-8 input)
make migration fail fatally with no manifest created. -/
theorem migrate_decode_error_fatal_witness :
    _migrate_requirements_to_pyproject ⟨none, some [255, 254]⟩ =
      Except.error "UnicodeDecodeError" ∧
    migrate_run ⟨none, some [255, 254]⟩ = ⟨none, some [255, 254]⟩ ∧
    (migrate_run (⟨none, some [255, 254]⟩ : ProjectState)).pyproject = none :=
  migrate_decode_error_fatal _ [255, 254] rfl rfl (by decide)

/-- C1: migration never changes an existing manifest, whether or not a
legacy requirements file is present, and it is idempotent — any state a
successful run returns is a fixed point of a second run. -/
theorem migrate_never_clobbers_manifest :
    (∀ st m, ProjectState.pyproject st = some m →
      _migrate_requirements_to_pyproject st = Except.ok st) ∧
    (∀ st st2, _migrate_requirements_to_pyproject st = Except.ok st2 →
      _migrate_requirements_to_pyproject st2 = Except.ok st2) := by
  constructor
  · intro st m h
    obtain ⟨py, req⟩ := st
    simp only at h
    subst h
    cases req <;> simp [_migrate_requirements_to_pyproject]
  · intro st st2 h
    obtain ⟨py, req⟩ := st
    cases req with
    | none =>
      simp only [_migrate_requirements_to_pyproject, Except.ok.injEq] at h
      subst h
      simp [_migrate_requirements_to_pyproject]
    | some bytes =>
      cases py with
      | some m =>
        simp only [_migrate_requirements_to_pyproject, Except.ok.injEq] at h
        subst h
        simp [_migrate_requirements_to_pyproject]
      | none =>
        cases hdec : utf8Decode bytes with
        | none =>
          simp [_migrate_requirements_to_pyproject, hdec] at h
        | some text =>
          simp only [_migrate_requirements_to_pyproject, hdec,
            Except.ok.injEq] at h
          subst h
          simp [_migrate_requirements_to_pyproject]

/-- C1 witness: a state with an existing manifest is returned unchanged
even though a legacy file is present, and the state created by a first
successful migration is a fixed point of a second run. -/
theorem migrate_never_clobbers_manifest_witness :
    _migrate_requirements_to_pyproject
        ⟨some "[project]".data, some (asciiBytes "requests==2.31.0\n")⟩ =
      Except.ok
        ⟨some "[project]".data, some (asciiBytes "requests==2.31.0\n")⟩ ∧
    _migrate_requirements_to_pyproject
        ⟨some (emitManifest (parse_requirements "a==1\n".data)),
          some (asciiBytes "a==1\n")⟩ =
      Except.ok ⟨some (emitManifest (parse_requirements "a==1\n".data)),
        some (asciiBytes "a==1\n")⟩ :=
  ⟨migrate_never_clobbers_manifest.1 _ "[project]".data rfl,
   migrate_never_clobbers_manifest.2 ⟨none, some (asciiBytes "a==1\n")⟩ _ rfl⟩

/-- C2: a line of the legacy file is a dependency exactly when its trimmed
form is non-empty and does not start with `'#'`, qualifying lines keep
their original relative order, and on the specification's scenario file
migration creates a manifest whose dependency list is exactly the three
requirement lines in order, each embedded as a quoted literal string, with
the comment text absent. -/
theorem migrate_dependency_classification :
    (∀ text : List Char, parse_requirements text =
      ((splitLines text).map strip).filter
        fun s => decide (s ≠ [] ∧ s.head? ≠ some '#')) ∧
    _migrate_requirements_to_pyproject
        ⟨none, some (asciiBytes scenarioText)⟩ =
      Except.ok ⟨some (emitManifest (parse_requirements scenarioText.data)),
        some (asciiBytes scenarioText)⟩ ∧
    parse_requirements scenarioText.data =
      ["requests==2.31.0".data, "pytest>=7.0.0".data, "black==23.0.0".data] ∧
    occursIn "\"requests==2.31.0\"".data
      (emitManifest (parse_requirements scenarioText.data)) = true ∧
    occursIn "\"pytest>=7.0.0\"".data
      (emitManifest (parse_requirements scenarioText.data)) = true ∧
    occursIn "\"black==23.0.0\"".data
      (emitManifest (parse_requirements scenarioText.data)) = true ∧
    occursIn "# comment".data
      (emitManifest (parse_requirements scenarioText.data)) = false := by
  have key : ∀ ls : List (List Char), ls.filterMap dep_of_line =
      (ls.map strip).filter fun s => decide (s ≠ [] ∧ s.head? ≠ some '#') := by
    intro ls
    induction ls with
    | nil => rfl
    | cons l ls ih =>
      simp only [List.filterMap_cons, List.map_cons, List.filter_cons]
      cases hs : strip l with
      | nil => simp [dep_of_line, hs, ih]
      | cons c cs =>
        by_cases hc : c = '#'
        · subst hc
          simp [dep_of_line, hs, ih]
        · simp [dep_of_line, hs, hc, ih]
  refine ⟨fun text => key _, rfl, by decide, by decide, by decide,
    by decide, by decide⟩

/-! ### Structure of the `[tool.ruff]` regex substitution (for C7) -/

/-- Any list is a prefix of itself extended on the right. -/
theorem isPrefixOf_append_self (p X : List Char) :
    p.isPrefixOf (p ++ X) = true := by
  induction p with
  | nil => simp [List.isPrefixOf]
  | cons a p ih => simp [List.isPrefixOf, ih]

/-- When `sectionStart` begins nowhere strictly inside `B` and begins
`rest`, the lazy match body ends exactly at the end of `B`. -/
theorem sectionIndex_append (B rest : List Char)
    (hB : ∀ n, n < B.length →
      sectionStart.isPrefixOf ((B ++ rest).drop n) = false)
    (hrest : sectionStart.isPrefixOf rest = true) :
    sectionIndex (B ++ rest) = B.length := by
  induction B with
  | nil =>
    cases rest with
    | nil => simp [sectionStart, List.isPrefixOf] at hrest
    | cons r rs => simp [sectionIndex, hrest]
  | cons b B ih =>
    have h0 := hB 0 (by simp)
    simp only [List.drop_zero, List.cons_append] at h0
    rw [List.cons_append]
    simp only [sectionIndex, h0, Bool.false_eq_true, if_false,
      List.length_cons]
    exact congrArg (· + 1) (ih fun n hn => by
      have := hB (n + 1) (by simpa using Nat.succ_lt_succ hn)
      simpa using this)

/-- Consequence of `sectionIndex_append` for the body skip. -/
theorem skipToSection_append (B rest : List Char)
    (hB : ∀ n, n < B.length →
      sectionStart.isPrefixOf ((B ++ rest).drop n) = false)
    (hrest : sectionStart.isPrefixOf rest = true) :
    skipToSection (B ++ rest) = rest := by
  rw [skipToSection, sectionIndex_append B rest hB hrest, List.drop_left]

/-- The substitution leaves a list in which the pattern begins nowhere
unchanged. -/
theorem ruffSub_no_match (l : List Char)
    (h : ∀ n, n < l.length → ruffPat.isPrefixOf (l.drop n) = false) :
    ruffSub l = l := by
  induction l with
  | nil => simp [ruffSub]
  | cons c cs ih =>
    have h0 := h 0 (by simp)
    simp only [List.drop_zero] at h0
    simp only [ruffSub, h0, Bool.false_eq_true, if_false]
    exact congrArg (c :: ·) (ih fun n hn => by
      have := h (n + 1) (by simpa using Nat.succ_lt_succ hn)
      simpa using this)

/-- The scan passes over a region in which the pattern begins nowhere. -/
theorem ruffSub_append_no_match (A rest : List Char)
    (h : ∀ n, n < A.length →
      ruffPat.isPrefixOf ((A ++ rest).drop n) = false) :
    ruffSub (A ++ rest) = A ++ ruffSub rest := by
  induction A with
  | nil => simp
  | cons a A ih =>
    have h0 := h 0 (by simp)
    simp only [List.drop_zero, List.cons_append] at h0
    rw [List.cons_append, List.cons_append]
    simp only [ruffSub, h0, Bool.false_eq_true, if_false]
    exact congrArg (a :: ·) (ih fun n hn => by
      have := h (n + 1) (by simpa using Nat.succ_lt_succ hn)
      simpa using this)

/-- At an occurrence of the pattern the substitution emits the replacement
and resumes after the lazily matched body. -/
theorem ruffSub_match_head (X : List Char) :
    ruffSub (ruffPat ++ X) = ruffRepl ++ ruffSub (skipToSection X) := by
  have hpre : ruffPat.isPrefixOf (ruffPat ++ X) = true :=
    isPrefixOf_append_self _ _
  have hdrop : List.drop ruffPat.length (ruffPat ++ X) = X :=
    List.drop_left _ _
  rw [show ruffPat ++ X = '[' :: ("tool.ruff]".data ++ X) from rfl]
  simp only [ruffSub]
  rw [show ('[' :: ("tool.ruff]".data ++ X)) = ruffPat ++ X from rfl]
  simp [hpre, hdrop]

/-- C7: on a manifest that already contains a `[tool.ruff]` block — text of
the form `A ++ "[tool.ruff]" ++ B ++ "\n[" ++ C` where the pattern does
not begin inside `A` or in the manifest's tail, and the block body `B`
contains no section start — `ruff_config_setup` (with the TOML-derived
flag `ruff_exists = true`) replaces exactly that block by the `extend`
block referencing the base configuration path, reproduces the prefix `A`
and the tail `"\n[" ++ C` (every sibling and nested section) byte for
byte, and reports "Overrode", not "Added". -/
theorem ruff_override_preserves_sibling_blocks (A B C : List Char)
    (hA : ∀ n, n < A.length →
      ruffPat.isPrefixOf
        ((A ++ (ruffPat ++ (B ++ (sectionStart ++ C)))).drop n) = false)
    (hB : ∀ n, n < B.length →
      sectionStart.isPrefixOf ((B ++ (sectionStart ++ C)).drop n) = false)
    (hC : ∀ n, n < (sectionStart ++ C).length →
      ruffPat.isPrefixOf ((sectionStart ++ C).drop n) = false) :
    ruff_config_update
        (String.mk (A ++ (ruffPat ++ (B ++ (sectionStart ++ C))))) true =
      String.mk (A ++ (ruffRepl ++ (sectionStart ++ C))) ∧
    ruffAction true = "Overrode" := by
  constructor
  · show String.mk
      (ruffSub (A ++ (ruffPat ++ (B ++ (sectionStart ++ C))))) = _
    congr 1
    rw [ruffSub_append_no_match A _ hA,
      ruffSub_match_head (B ++ (sectionStart ++ C)),
      skipToSection_append B (sectionStart ++ C) hB
        (isPrefixOf_append_self _ _),
      ruffSub_no_match _ hC]
  · rfl

/-- C7 witness: a concrete manifest with a `[project]` block, an existing
`[tool.ruff]` block body, and a following `[tool.other]` sibling block:
the rewrite replaces only the ruff block and keeps the siblings, reporting
"Overrode". -/
theorem ruff_override_preserves_sibling_blocks_witness :
    ruff_config_update (String.mk ("[project]\nx = 1\n\n".data ++ (ruffPat ++
        ("\nline-length = 120".data ++ (sectionStart ++
        "tool.other]\nkey = 1\n".data))))) true =
      String.mk ("[project]\nx = 1\n\n".data ++ (ruffRepl ++ (sectionStart ++
        "tool.other]\nkey = 1\n".data))) ∧
    ruffAction true = "Overrode" :=
  ruff_override_preserves_sibling_blocks _ _ _ (by decide) (by decide)
    (by decide)

end Ultrapyup
